import Mathlib

/-!
# CORTAP-RPT: verification of the ingestion/consolidation/cache/validate pipeline

Shallow embedding of the algorithmic core of the CORTAP-RPT repository:

* `app/services/s3_storage.py` — TTL-bearing JSON cache over a blob store
  (`upload_json_data`, `get_json_data`, `delete_document`);
* `app/services/data_service.py` — cache orchestration (`invalidate_cache`);
* `app/services/data_transformer.py` — consolidation of project controls into
  the fixed FY26 review-area set (`_map_status_to_finding`,
  `_consolidate_review_area`, `_consolidate_assessments_by_review_area`);
* `src/services/riskuity_control_mapping.py` — the canonical prefix table and
  area set (`map_to_json_review_area`, `get_all_json_review_areas`);
* `app/services/riskuity_client.py` — retry/backoff client
  (`_request_with_retry`, `get_all_assessment_details`);
* `app/services/validator.py` — template completeness scoring
  (`check_completeness`, `_field_exists`, `_get_template_requirements`).

Python dicts are modelled as association lists over `String` keys (Python
dict keys are unique, assignment replaces in place, deletion removes the
key); JSON values as the inductive `Json`; wall-clock instants and the ISO
timestamps derived from them as seconds-since-epoch naturals; and the remote
HTTP surface as an explicit per-attempt outcome function.
-/

/-- JSON value, as produced by `json.loads` / consumed by `json.dumps`.
Objects carry their fields as an association list in insertion order. -/
inductive Json where
  | null
  | bool (b : Bool)
  | num (n : Nat)
  | str (s : String)
  | arr (elems : List Json)
  | obj (fields : List (String × Json))

/-- A Python dict with string keys: the top-level shape of every document
handled by the pipeline. -/
abbrev Dict := List (String × Json)

/-- `d.get(k)` on a Python dict: the value under the first (hence, for a real
dict, the only) binding of `k`. -/
def alistGet {β : Type} : List (String × β) → String → Option β
  | [], _ => none
  | (a, b) :: rest, k => if a = k then some b else alistGet rest k

/-- `d[k] = v` on a Python dict: replace the value in place when the key is
bound, otherwise append a new binding. -/
def alistSet {β : Type} : List (String × β) → String → β → List (String × β)
  | [], k, v => [(k, v)]
  | (a, b) :: rest, k, v =>
      if a = k then (a, v) :: rest else (a, b) :: alistSet rest k v

/-- Removal of a key from a Python dict (all bindings, of which a real dict
has at most one). -/
def alistErase {β : Type} (d : List (String × β)) (k : String) : List (String × β) :=
  d.filter (fun p => p.1 ≠ k)

/-! ## Cache-aside store — `app/services/s3_storage.py`, `app/services/data_service.py`

The S3 bucket is a key-value map from object keys to stored JSON documents.
Serialization (`json.dumps` / `json.loads`) round-trips the documents we
store, so the bucket holds `Dict` values directly. -/

/-- The S3 bucket contents: object key ↦ stored JSON document. -/
abbrev Store := List (String × Dict)

/-- The `_metadata` block written by `upload_json_data`: `generated_at = now`,
`expires_at = now + ttl_hours` (ISO timestamps, modelled as epoch seconds),
and the project id. -/
def cacheMetadataJson (now : Nat) (ttlHours : Nat) (projectId : String) : Json :=
  .obj [("generated_at", .num now),
        ("expires_at", .num (now + ttlHours * 3600)),
        ("project_id", .str projectId)]

/-- The S3 object key used for a cached project document:
`data/{project_id}_project-data.json`. -/
def projectDataKey (projectId : String) : String :=
  "data/" ++ projectId ++ "_project-data.json"

/-- What `S3Storage.upload_json_data` leaves behind: the caller-supplied dict
after the in-place `data["_metadata"] = ...` assignment, the updated bucket,
and the object key it returns. -/
structure UploadResult where
  mutated : Dict
  store : Store
  s3Key : String

/-- `S3Storage.upload_json_data(project_id, data, ttl_hours)` at instant
`now`: inserts the `_metadata` block into the caller's dict itself, then
writes the (mutated) document to `data/{project_id}_project-data.json`,
overwriting any previous object. -/
def upload_json_data (store : Store) (now : Nat) (projectId : String)
    (data : Dict) (ttlHours : Nat) : UploadResult :=
  let s3Key := projectDataKey projectId
  let mutated := alistSet data "_metadata" (cacheMetadataJson now ttlHours projectId)
  { mutated := mutated, store := alistSet store s3Key mutated, s3Key := s3Key }

/-- `S3Storage.get_json_data(project_id)` at instant `now`: a missing object
(`NoSuchKey`) is `none`; a stored document whose `_metadata.expires_at` lies
strictly in the past is treated as absent (without deleting it); otherwise
the stored document is returned as is.  A document whose `_metadata` is not
an object, or whose `expires_at` is absent, skips the expiry check exactly as
`metadata.get("expires_at")` being falsy does (documents written by
`upload_json_data` always carry a well-formed block). -/
def get_json_data (store : Store) (now : Nat) (projectId : String) : Option Dict :=
  match alistGet store (projectDataKey projectId) with
  | none => none
  | some data =>
      let metadata : List (String × Json) :=
        match alistGet data "_metadata" with
        | some (.obj fields) => fields
        | _ => []
      match alistGet metadata "expires_at" with
      | some (.num expiresAt) => if now > expiresAt then none else some data
      | _ => some data

/-- `S3Storage.delete_document(s3_key)`: issues `delete_object` and returns
`True`.  S3 `DeleteObject` succeeds (HTTP 204) whether or not the key exists,
so absent an infrastructure failure (the `ClientError` branch, not modelled)
the method returns `True` unconditionally — it performs no existence check. -/
def delete_document (store : Store) (s3Key : String) : Store × Bool :=
  (alistErase store s3Key, true)

/-- `DataService.invalidate_cache(project_id)`: deletes
`data/{project_id}_project-data.json` via `delete_document` and returns its
boolean result. -/
def invalidate_cache (store : Store) (projectId : Nat) : Store × Bool :=
  delete_document store (projectDataKey (toString projectId))

/-! ## Canonical control mapping — `src/services/riskuity_control_mapping.py` -/

/-- `RISKUITY_PREFIX_TO_JSON_AREA`: the versioned static table from normalized
Riskuity control-name labels to canonical FY26 review-area names (note the
en-dash variants in the keys). -/
def RISKUITY_PREFIX_TO_JSON_AREA : List (String × String) :=
  [("LEGAL", "Legal"),
   ("FINANCIAL MANAGEMENT", "Financial Management and Capacity"),
   ("FINANCIAL MANAGEMENT AND CAPACITY", "Financial Management and Capacity"),
   ("TECHNICAL CAPACITY AWARD MANAGEMENT", "Technical Capacity - Award Management"),
   ("TECHNICAL CAPACITY – AWARD MANAGEMENT", "Technical Capacity - Award Management"),
   ("TECHNICAL CAPACITY PROGRAM MANAGEMENT",
     "Technical Capacity - Program Management and Subrecipient Oversight"),
   ("TECHNICAL CAPACITY – PROGRAM MANAGEMENT",
     "Technical Capacity - Program Management and Subrecipient Oversight"),
   ("TECHNICAL CAPACITY PROJECT MANAGEMENT", "Technical Capacity - Project Management"),
   ("TECHNICAL CAPACITY – PROJECT MANAGEMENT", "Technical Capacity - Project Management"),
   ("TRANSIT ASSET MANAGEMENT", "Transit Asset Management"),
   ("SATISFACTORY CONTINUING CONTROL", "Satisfactory Continuing Control"),
   ("MAINTENANCE", "Maintenance"),
   ("PROCUREMENT", "Procurement"),
   ("ADA GENERAL", "Americans with Disabilities Act (ADA) - General"),
   ("ADA COMPLEMENTARY PARATRANSIT",
     "Americans with Disabilities Act (ADA) - Complementary Paratransit"),
   ("SCHOOL BUS", "School Bus"),
   ("CHARTER BUS", "Charter Bus"),
   ("DRUG FREE WORKPLACE ACT", "Drug-Free Workplace Act"),
   ("DRUG-FREE WORKPLACE ACT", "Drug-Free Workplace Act"),
   ("DRUG AND ALCOHOL PROGRAM", "Drug and Alcohol Program"),
   ("SECTION 5307 PROGRAM REQUIREMENTS", "Section 5307 Program Requirements"),
   ("SECTION 5310 PROGRAM REQUIREMENTS", "Section 5310 Program Requirements"),
   ("SECTION 5311 PROGRAM REQUIREMENTS", "Section 5311 Program Requirements"),
   ("PUBLIC TRANSPORTATION AGENCY SAFETY PLAN",
     "Public Transportation Agency Safety Plan (PTASP)"),
   ("PTASP", "Public Transportation Agency Safety Plan (PTASP)"),
   ("CYBERSECURITY", "Cybersecurity")]

/-- Strip leading and trailing whitespace from a character list
(`str.strip()`). -/
def stripList (cs : List Char) : List Char :=
  ((cs.dropWhile Char.isWhitespace).reverse.dropWhile Char.isWhitespace).reverse

/-- Collapse every maximal whitespace run to a single space
(`re.sub(r"\s+", " ", s)`). -/
def collapseWhitespace : List Char → List Char
  | [] => []
  | c :: rest =>
      if c.isWhitespace then ' ' :: collapseWhitespace (rest.dropWhile Char.isWhitespace)
      else c :: collapseWhitespace rest
termination_by cs => cs.length
decreasing_by
  · have h := (List.dropWhile_sublist (l := rest) Char.isWhitespace).length_le
    simp only [List.length_cons]
    omega
  · simp only [List.length_cons]
    omega

/-- Embeds `extract_control_prefix`: the part of a control name before the
first colon, stripped and whitespace-normalized.  The regex
`^(.+?)\s*:` requires a colon with at least one character before it; when
everything before the colon is whitespace the extracted label is the empty
string, which the lookup below rejects, as in the source. -/
def extractControlCategory (controlName : String) : Option String :=
  let cs := controlName.toList
  if cs.contains ':' then
    let beforeColon := cs.takeWhile (fun c => c ≠ ':')
    if beforeColon = [] then none
    else some (String.mk (collapseWhitespace (stripList beforeColon)))
  else none

/-- `map_to_json_review_area`: normalize the label before the colon and look
it up in the static table; unmapped or empty labels give `none`. -/
def map_to_json_review_area (controlName : String) : Option String :=
  match extractControlCategory controlName with
  | none => none
  | some p => if p = "" then none else alistGet RISKUITY_PREFIX_TO_JSON_AREA p

/-- `get_all_json_review_areas`: the unique mapped area names plus
`"Title VI"`, sorted alphabetically — the versioned canonical FY26 set
(21 areas). -/
def get_all_json_review_areas : List String :=
  (((RISKUITY_PREFIX_TO_JSON_AREA.map Prod.snd).dedup) ++ ["Title VI"]).mergeSort
    (fun a b => a ≤ b)

/-! ## Consolidation engine — `app/services/data_transformer.py` -/

/-- One element of an assessment's `instances` array. -/
structure RiskInstance where
  review_status : String
deriving DecidableEq

/-- The assessment object embedded in a Riskuity project control.  Absent
fields read through `.get(..., "")` are modelled as the empty string, and an
absent `status` (`.get("status", "Not Started")`) as `"Not Started"`. -/
structure Assessment where
  status : String
  comments : String
  description : String
  instances : List RiskInstance
deriving DecidableEq

/-- The control object embedded in a Riskuity project control. -/
structure Control where
  id : String
  name : String
deriving DecidableEq

/-- One raw record from `GET /projects/project_controls/{project_id}`. -/
structure ProjectControl where
  id : String
  control : Control
  assessment : Assessment
deriving DecidableEq

/-- `pat` is a leading segment of `s`. -/
def listStartsWith : List Char → List Char → Bool
  | [], _ => true
  | _ :: _, [] => false
  | p :: ps, c :: cs => p = c && listStartsWith ps cs

/-- `pat` occurs contiguously somewhere in `s`. -/
def containsSubAux (pat : List Char) : List Char → Bool
  | [] => pat.isEmpty
  | c :: cs => listStartsWith pat (c :: cs) || containsSubAux pat cs

/-- Python substring containment `pat in s`. -/
def containsSub (s pat : String) : Bool :=
  containsSubAux pat.data s.data

/-- Python `str.lower()` (the texts involved are ASCII). -/
def lowerString (s : String) : String :=
  String.mk (s.data.map Char.toLower)

/-- Python `str.split(sep)` for a one-character separator: `""` gives
`[""]`, and every separator occurrence opens a new (possibly empty) part. -/
def splitOnChar (sep : Char) : List Char → List (List Char)
  | [] => [[]]
  | c :: rest =>
      let r := splitOnChar sep rest
      if c = sep then [] :: r
      else
        match r with
        | h :: t => (c :: h) :: t
        | [] => [[c]]

/-- The deficiency keywords searched in `comments`
(`["fail", "deficien", "non-complian", "violation"]`). -/
def commentDeficiencyKeywords : List String :=
  ["fail", "deficien", "non-complian", "violation"]

/-- The deficiency keywords searched in `instances[0].review_status`
(`["deficien", "fail", "non-complian"]`). -/
def reviewStatusDeficiencyKeywords : List String :=
  ["deficien", "fail", "non-complian"]

/-- `"not applicable" in text or "n/a" in text`. -/
def hasNaMarker (text : String) : Bool :=
  containsSub text "not applicable" || containsSub text "n/a"

/-- `any(word in text for word in words)`. -/
def hasAnyKeyword (text : String) (words : List String) : Bool :=
  words.any (fun w => containsSub text w)

/-- Embeds `DataTransformer._map_status_to_finding`: classify one record as
`"D"` / `"ND"` / `"NA"` from its lowercased comment text, else from the first
instance's lowercased review status, else from the coarse `status` field
(every branch of which yields `"ND"`). -/
def map_status_to_finding (status : String) (assessment : Assessment) : String :=
  let comments := lowerString assessment.comments
  if comments ≠ "" ∧ hasAnyKeyword comments commentDeficiencyKeywords then "D"
  else if comments ≠ "" ∧ hasNaMarker comments then "NA"
  else
    let fromStatus :=
      if status = "Complete" ∨ status = "Completed" then "ND"
      else if status = "Not Started" then "ND"
      else "ND"
    match assessment.instances with
    | [] => fromStatus
    | inst :: _ =>
        let review_status := lowerString inst.review_status
        if review_status ≠ "" ∧ hasAnyKeyword review_status reviewStatusDeficiencyKeywords then "D"
        else if review_status ≠ "" ∧ hasNaMarker review_status then "NA"
        else fromStatus

/-- The per-record entry appended to a review-area group
(`review_areas[json_review_area].append({...})`). -/
structure MappedControl where
  assessment : Assessment
  finding : String
  control_name : String
  control_id : String
  project_control_id : String
deriving DecidableEq

/-- One consolidated review-area assessment in CORTAP format. -/
structure ConsolidatedAssessment where
  review_area : String
  finding : String
  deficiency_code : Option String
  description : Option String
  corrective_action : Option String
  due_date : Option String
  date_closed : Option String
deriving DecidableEq

/-- A review area synthesized for an area with no mapped controls. -/
def naAssessment (area : String) : ConsolidatedAssessment :=
  ⟨area, "NA", none, none, none, none, none⟩

/-- Embeds `DataTransformer._consolidate_review_area`: any deficient record
makes the area `"D"` and aggregates one `"{control-name}: {text}"` line per
deficient record (comments preferred over description, records with neither
skipped, a fixed fallback line when all are skipped); otherwise all-`"NA"`
records give `"NA"`, else `"ND"`; non-deficient areas carry no description. -/
def consolidate_review_area (reviewAreaName : String) (controls : List MappedControl) :
    ConsolidatedAssessment :=
  let deficientControls := controls.filter (fun c => c.finding = "D")
  if deficientControls ≠ [] then
    let deficiencyDescriptions := deficientControls.filterMap (fun dc =>
      if dc.assessment.comments ≠ "" then
        some (dc.control_name ++ ": " ++ dc.assessment.comments)
      else if dc.assessment.description ≠ "" then
        some (dc.control_name ++ ": " ++ dc.assessment.description)
      else none)
    let description :=
      if deficiencyDescriptions ≠ [] then String.intercalate "\n" deficiencyDescriptions
      else "Deficiency found in one or more controls"
    ⟨reviewAreaName, "D", none, some description, none, none, none⟩
  else if controls.all (fun c => c.finding = "NA") then
    ⟨reviewAreaName, "NA", none, none, none, none, none⟩
  else
    ⟨reviewAreaName, "ND", none, none, none, none, none⟩

/-- `defaultdict(list)` grouping: append `v` to the group of `k`, creating
the group at the end on first sight of `k` (insertion order preserved). -/
def alistAppendGroup {β : Type} : List (String × List β) → String → β → List (String × List β)
  | [], k, v => [(k, [v])]
  | (a, vs) :: rest, k, v =>
      if a = k then (a, vs ++ [v]) :: rest else (a, vs) :: alistAppendGroup rest k v

/-- One iteration of the grouping loop of
`_consolidate_assessments_by_review_area` (lines 242-277): map the control
name to its review area — skipping the record when unmapped — classify the
record, and append it to its area group. -/
def group_step (groups : List (String × List MappedControl)) (pc : ProjectControl) :
    List (String × List MappedControl) :=
  match map_to_json_review_area pc.control.name with
  | none => groups
  | some jsonReviewArea =>
      alistAppendGroup groups jsonReviewArea
        { assessment := pc.assessment,
          finding := map_status_to_finding pc.assessment.status pc.assessment,
          control_name := pc.control.name,
          control_id := pc.control.id,
          project_control_id := pc.id }

/-- The grouping loop of `_consolidate_assessments_by_review_area`: one
`group_step` per raw record, in order. -/
def group_project_controls (pcs : List ProjectControl) : List (String × List MappedControl) :=
  pcs.foldl group_step []

/-- Embeds `DataTransformer._consolidate_assessments_by_review_area`: group
the raw records by canonical area, consolidate each group, then append every
canonical area that received no records as `"NA"` with null description.
The source iterates the missing areas as a Python set (arbitrary order); the
model fixes the canonical order, which no claim distinguishes. -/
def consolidate_assessments_by_review_area (pcs : List ProjectControl) :
    List ConsolidatedAssessment :=
  let review_areas := group_project_controls pcs
  let consolidated := review_areas.map (fun g => consolidate_review_area g.1 g.2)
  let existing_areas := review_areas.map Prod.fst
  let missing_areas := get_all_json_review_areas.filter (fun a => ¬ existing_areas.contains a)
  consolidated ++ missing_areas.map naAssessment

/-! ## Remote fetcher — `app/services/riskuity_client.py` -/

/-- What one HTTP attempt observes: a timeout (`httpx.TimeoutException`), a
connection failure (`httpx.RequestError`), or an HTTP response with its
status, optional `Retry-After` header value, and `response.json()` result
(`none` when the body is not valid JSON). -/
inductive AttemptOutcome (α : Type) where
  | timeout
  | connectionError
  | response (status : Nat) (retryAfter : Option Nat) (body : Option α)
deriving DecidableEq

/-- A `RiskuityAPIError` as raised by the client: its `error_code` and the
`status_code` entry of its `details` payload, when one is set. -/
structure RiskuityAPIError where
  error_code : String
  status_code : Option Nat
deriving DecidableEq

/-- The retry loop of `RiskuityClient._request_with_retry`, one iteration per
unit of fuel (`for attempt in range(1, max_retries + 1)`), returning the
outcome together with the list of `asyncio.sleep` delays performed, in
order.  A 429 waits `Retry-After` (default `2 ** attempt`) and consumes an
attempt; a 500 or 503 backs off `2 ** (attempt - 1)` seconds while attempts
remain, else fails as `RISKUITY_SERVER_ERROR`; any other status `>= 400`
fails immediately as `RISKUITY_HTTP_{status}` carrying the status code;
otherwise the parsed body is returned (`RISKUITY_INVALID_JSON` when parsing
fails).  Timeouts and connection errors back off like 500s, exhausting into
`RISKUITY_TIMEOUT` / `RISKUITY_CONNECTION_ERROR`. -/
def request_with_retry_go {α : Type} (maxRetries : Nat) (outcome : Nat → AttemptOutcome α) :
    Nat → Nat → Except RiskuityAPIError α × List Nat
  | _, 0 => (.error ⟨"RISKUITY_UNEXPECTED_ERROR", none⟩, [])
  | attempt, fuel + 1 =>
    match outcome attempt with
    | .response status retryAfter body =>
        if status = 429 then
          let retryDelay := retryAfter.getD (2 ^ attempt)
          let next := request_with_retry_go maxRetries outcome (attempt + 1) fuel
          (next.1, retryDelay :: next.2)
        else if status = 500 ∨ status = 503 then
          if attempt < maxRetries then
            let backoffDelay := 2 ^ (attempt - 1)
            let next := request_with_retry_go maxRetries outcome (attempt + 1) fuel
            (next.1, backoffDelay :: next.2)
          else
            (.error ⟨"RISKUITY_SERVER_ERROR", some status⟩, [])
        else if 400 ≤ status then
          (.error ⟨"RISKUITY_HTTP_" ++ toString status, some status⟩, [])
        else
          match body with
          | some data => (.ok data, [])
          | none => (.error ⟨"RISKUITY_INVALID_JSON", none⟩, [])
    | .timeout =>
        if attempt < maxRetries then
          let backoffDelay := 2 ^ (attempt - 1)
          let next := request_with_retry_go maxRetries outcome (attempt + 1) fuel
          (next.1, backoffDelay :: next.2)
        else
          (.error ⟨"RISKUITY_TIMEOUT", none⟩, [])
    | .connectionError =>
        if attempt < maxRetries then
          let backoffDelay := 2 ^ (attempt - 1)
          let next := request_with_retry_go maxRetries outcome (attempt + 1) fuel
          (next.1, backoffDelay :: next.2)
        else
          (.error ⟨"RISKUITY_CONNECTION_ERROR", none⟩, [])

/-- Embeds `RiskuityClient._request_with_retry` with `max_retries` attempts
(default 3), attempts numbered from 1. -/
def request_with_retry {α : Type} (maxRetries : Nat) (outcome : Nat → AttemptOutcome α) :
    Except RiskuityAPIError α × List Nat :=
  request_with_retry_go maxRetries outcome 1 maxRetries

/-- The detail-fetch fan-out of `RiskuityClient.get_all_assessment_details`
(lines 419-440), applied to the identifier list obtained from the list call:
slice the identifiers into batches of `max_concurrent`, gather each batch
(`return_exceptions=True`), keep the successful results in order and drop
(log) the failures.  `fetchDetail` is the per-identifier result of
`get_assessment_by_id`, i.e. of `_request_with_retry`, after its retries. -/
def get_all_assessment_details {α : Type} (fetchDetail : Nat → Except RiskuityAPIError α)
    (maxConcurrent : Nat) : List Nat → List α
  | [] => []
  | id :: rest =>
      let batch := id :: rest.take (maxConcurrent - 1)
      let batchResults := batch.map fetchDetail
      batchResults.filterMap Except.toOption
        ++ get_all_assessment_details fetchDetail maxConcurrent (rest.drop (maxConcurrent - 1))
termination_by ids => ids.length
decreasing_by
  simp only [List.length_cons, List.length_drop]
  omega

/-! ## Completeness validator — `app/services/validator.py` -/

/-- A `CompletenessResult` (`app/services/validator.py`, lines 36-63). -/
structure CompletenessResult where
  missing_critical_fields : List String
  missing_optional_fields : List String
  data_quality_score : Nat
  can_generate : Bool
deriving DecidableEq

/-- The critical/optional dotted field paths for one template. -/
structure TemplateRequirements where
  critical : List String
  optional : List String
deriving DecidableEq

/-- The template-independent critical field set (`common_critical`). -/
def commonCritical : List String :=
  ["project.region_number",
   "project.review_type",
   "project.recipient_name",
   "project.recipient_acronym",
   "project.recipient_city_state",
   "project.report_date",
   "contractor.company_name",
   "fta_program_manager.name",
   "assessments",
   "metadata.has_deficiencies"]

/-- The template-independent optional field set (`common_optional`). -/
def commonOptional : List String :=
  ["project.recipient_website",
   "project.site_visit_dates",
   "project.exit_conference_format",
   "fta_program_manager.title",
   "fta_program_manager.region"]

/-- Embeds `JsonValidator._get_template_requirements`: the common sets plus
template-specific additions; unknown template identifiers fall back to the
common sets (with a logged warning). -/
def get_template_requirements (templateId : String) : TemplateRequirements :=
  if templateId = "draft-audit-report" then
    { critical := commonCritical ++ ["project.exit_conference_format", "metadata.deficiency_count"],
      optional := commonOptional ++ ["contractor.team_members"] }
  else if templateId = "recipient-information-request" then
    { critical := commonCritical, optional := commonOptional }
  else
    { critical := commonCritical, optional := commonOptional }

/-- The final presence test of `_field_exists`:
`current is not None and current != ""` — only `None` and the empty string
fail it (Python `x != ""` is `True` for every non-string `x`). -/
def isPresentValue : Json → Bool
  | .null => false
  | .str s => s ≠ ""
  | _ => true

/-- The traversal loop of `_field_exists`: descend through nested dicts along
the path parts, failing when a part is missing or the current value is not a
dict. -/
def walkFieldPath : List String → Json → Bool
  | [], current => isPresentValue current
  | part :: rest, current =>
      match current with
      | .obj fields =>
          match alistGet fields part with
          | some v => walkFieldPath rest v
          | none => false
      | _ => false

/-- Embeds `JsonValidator._field_exists`: dot-path traversal over nested
dicts, then the non-null non-empty-string check. -/
def field_exists (jsonData : Dict) (fieldPath : String) : Bool :=
  walkFieldPath ((splitOnChar '.' fieldPath.data).map String.mk) (.obj jsonData)

/-- Embeds `JsonValidator.check_completeness`: collect the missing critical
and optional paths, score
`int((present_fields / total_fields) * 100)` — equal to the integer floor
`present_fields * 100 / total_fields` for every reachable field-set size
(15 and 18; checked exhaustively against CPython float semantics) — and gate
generation on no critical field missing. -/
def check_completeness (jsonData : Dict) (templateId : String) : CompletenessResult :=
  let templateRequirements := get_template_requirements templateId
  let missingCritical := templateRequirements.critical.filter
    (fun f => ¬ field_exists jsonData f)
  let missingOptional := templateRequirements.optional.filter
    (fun f => ¬ field_exists jsonData f)
  let totalFields := templateRequirements.critical.length + templateRequirements.optional.length
  let presentFields := totalFields - missingCritical.length - missingOptional.length
  let qualityScore := if totalFields > 0 then presentFields * 100 / totalFields else 100
  { missing_critical_fields := missingCritical,
    missing_optional_fields := missingOptional,
    data_quality_score := qualityScore,
    can_generate := missingCritical.length = 0 }

/-- The lowercased review status of the first instance, when any
(`instances[0].get("review_status", "").lower()` behind the `if instances:`
guard; the empty string — on which every check below is vacuously false —
when there is none). -/
def firstReviewStatus (a : Assessment) : String :=
  match a.instances with
  | [] => ""
  | inst :: _ => lowerString inst.review_status

/-! ## Concrete instances used in counterexamples and witnesses -/

/-- A remote endpoint that answers every attempt with a 502 Bad Gateway. -/
def persistent502 : Nat → AttemptOutcome Nat :=
  fun _ => .response 502 none (some 0)

/-- Per-identifier attempt outcomes for the partial-batch-failure scenario:
identifier 3 hits a 500 on every attempt, every other identifier succeeds
with its record. -/
def c4_scenario_outcome (id : Nat) : Nat → AttemptOutcome Nat :=
  fun _ => if id = 3 then .response 500 none (some id) else .response 200 none (some id)

/-- The per-identifier detail-fetch result in the partial-batch-failure
scenario: `get_assessment_by_id` = `_request_with_retry` after its retries. -/
def c4_scenario_fetch (id : Nat) : Except RiskuityAPIError Nat :=
  (request_with_retry 3 (c4_scenario_outcome id)).1

/-- A canonical document with every critical field of the common template
set present and exactly two optional fields
(`project.recipient_website`, `project.site_visit_dates`) missing:
13 of 15 checked fields are present. -/
def twoOptionalMissingDoc : Dict :=
  [("project", .obj
      [("region_number", .num 5),
       ("review_type", .str "Triennial Review"),
       ("recipient_name", .str "Metro Transit"),
       ("recipient_acronym", .str "MT"),
       ("recipient_city_state", .str "Springfield, IL"),
       ("report_date", .str "2026-01-15"),
       ("exit_conference_format", .str "virtual")]),
   ("contractor", .obj [("company_name", .str "Acme Reviews LLC")]),
   ("fta_program_manager", .obj
      [("name", .str "Jordan Lee"),
       ("title", .str "Program Manager"),
       ("region", .num 5)]),
   ("assessments", .arr []),
   ("metadata", .obj [("has_deficiencies", .bool false)])]

/-- A canonical document with all 15 checked fields of the common template
set present. -/
def allFieldsDoc : Dict :=
  [("project", .obj
      [("region_number", .num 5),
       ("review_type", .str "Triennial Review"),
       ("recipient_name", .str "Metro Transit"),
       ("recipient_acronym", .str "MT"),
       ("recipient_city_state", .str "Springfield, IL"),
       ("report_date", .str "2026-01-15"),
       ("recipient_website", .str "https://example.org"),
       ("site_visit_dates", .str "2026-03-02 to 2026-03-06"),
       ("exit_conference_format", .str "virtual")]),
   ("contractor", .obj [("company_name", .str "Acme Reviews LLC")]),
   ("fta_program_manager", .obj
      [("name", .str "Jordan Lee"),
       ("title", .str "Program Manager"),
       ("region", .num 5)]),
   ("assessments", .arr []),
   ("metadata", .obj [("has_deficiencies", .bool false), ("deficiency_count", .num 0)])]

/-! ## Association-list lemmas -/

theorem alistGet_alistSet_self {β : Type} (d : List (String × β)) (k : String) (v : β) :
    alistGet (alistSet d k v) k = some v := by
  induction d with
  | nil => simp [alistGet, alistSet]
  | cons p rest ih =>
      obtain ⟨a, b⟩ := p
      by_cases h : a = k
      · simp [alistGet, alistSet, h]
      · simp [alistGet, alistSet, h, ih]

theorem alistGet_alistSet_ne {β : Type} (d : List (String × β)) (k k' : String) (v : β)
    (h : k' ≠ k) : alistGet (alistSet d k v) k' = alistGet d k' := by
  induction d with
  | nil =>
      simp only [alistSet, alistGet]
      rw [if_neg (fun hh => h (Eq.symm hh))]
  | cons p rest ih =>
      obtain ⟨a, b⟩ := p
      by_cases ha : a = k
      · subst ha
        simp only [alistSet, if_pos rfl, alistGet]
        rw [if_neg (fun hh => h (Eq.symm hh)), if_neg (fun hh => h (Eq.symm hh))]
      · simp only [alistSet, if_neg ha, alistGet, ih]

theorem alistGet_eq_none_forall {β : Type} (d : List (String × β)) (k : String)
    (h : alistGet d k = none) : ∀ p ∈ d, p.1 ≠ k := by
  induction d with
  | nil => intro p hp; cases hp
  | cons q rest ih =>
      obtain ⟨a, b⟩ := q
      simp only [alistGet] at h
      by_cases ha : a = k
      · simp [ha] at h
      · simp only [if_neg ha] at h
        intro p hp
        rcases List.mem_cons.mp hp with hp | hp
        · simpa [hp] using ha
        · exact ih h p hp

theorem alistErase_alistSet {β : Type} (d : List (String × β)) (k : String) (v : β)
    (h : alistGet d k = none) : alistErase (alistSet d k v) k = d := by
  induction d with
  | nil => simp [alistErase, alistSet]
  | cons p rest ih =>
      obtain ⟨a, b⟩ := p
      simp only [alistGet] at h
      by_cases ha : a = k
      · simp [ha] at h
      · simp only [if_neg ha] at h
        simp only [alistSet, if_neg ha, alistErase] at ih ⊢
        rw [List.filter_cons_of_pos (by simpa using ha), ih h]

/-! ## Cache-aside store: theorems -/

/-- After a `put`, a `get` of the same key yields the stored (metadata-bearing)
document until `expires_at`, and `none` strictly afterwards. -/
theorem get_json_data_upload (store : Store) (pid : String) (doc : Dict)
    (ttlHours t₀ t₁ : Nat) :
    get_json_data (upload_json_data store t₀ pid doc ttlHours).store t₁ pid =
      if t₁ > t₀ + ttlHours * 3600 then none
      else some (upload_json_data store t₀ pid doc ttlHours).mutated := by
  simp only [upload_json_data, get_json_data, alistGet_alistSet_self, cacheMetadataJson, alistGet]
  simp only [if_neg (by decide : ¬("generated_at" : String) = "expires_at"), if_true]

/-- C5: `put(k, doc, ttl)` immediately followed by `get(k)` before the ttl has
elapsed returns the document, equal to `doc` aside from the added `_metadata`
cache block (erasing it restores `doc` exactly); once the ttl has elapsed,
`get(k)` returns `none` — the expired entry is treated as absent. -/
theorem c5_cache_roundtrip (store : Store) (pid : String) (doc : Dict)
    (ttlHours t₀ t₁ : Nat) (hm : alistGet doc "_metadata" = none) :
    (t₁ ≤ t₀ + ttlHours * 3600 →
      get_json_data (upload_json_data store t₀ pid doc ttlHours).store t₁ pid =
        some (upload_json_data store t₀ pid doc ttlHours).mutated ∧
      alistErase (upload_json_data store t₀ pid doc ttlHours).mutated "_metadata" = doc) ∧
    (t₀ + ttlHours * 3600 < t₁ →
      get_json_data (upload_json_data store t₀ pid doc ttlHours).store t₁ pid = none) := by
  constructor
  · intro h
    constructor
    · rw [get_json_data_upload, if_neg (by omega)]
    · exact alistErase_alistSet doc "_metadata" _ hm
  · intro h
    rw [get_json_data_upload, if_pos (by omega)]

/-- C5 witness: a concrete put/get round trip within the ttl. -/
theorem c5_witness :
    alistGet ([("project_id", Json.str "42")] : Dict) "_metadata" = none ∧
    (10 : Nat) ≤ 0 + 1 * 3600 ∧
    get_json_data (upload_json_data [] 0 "42" [("project_id", Json.str "42")] 1).store 10 "42" =
      some (upload_json_data [] 0 "42" [("project_id", Json.str "42")] 1).mutated :=
  ⟨rfl, by decide,
   ((c5_cache_roundtrip [] "42" [("project_id", Json.str "42")] 1 0 10 rfl).1 (by decide)).1⟩

/-- C6: the code, evaluated against the claim.  `invalidate_cache` returns
`true` for every store and key — in particular for a key under which nothing
was ever cached — because S3 `delete_object` succeeds whether or not the key
exists and `delete_document` performs no existence check; the claim (and the
docstring of `invalidate_cache`, which promises `False if not found`)
requires `false` there. -/
theorem c6_invalidate_returns_true_on_unset_key :
    (∀ (store : Store) (projectId : Nat), (invalidate_cache store projectId).2 = true) ∧
    invalidate_cache ([] : Store) 42 = (([] : Store), true) ∧
    get_json_data ([] : Store) 0 "42" = none :=
  ⟨fun _ _ => rfl, rfl, rfl⟩

/-- C10: `upload_json_data` mutates the caller-supplied dict in place: the
dict the caller holds afterwards carries the `_metadata` block under its
original fields, all other keys are untouched, and every document a later
`get` returns for that key is exactly that mutated dict. -/
theorem c10_upload_mutates_caller_document (store : Store) (pid : String) (doc : Dict)
    (ttlHours t₀ t₁ : Nat) :
    (upload_json_data store t₀ pid doc ttlHours).mutated =
      alistSet doc "_metadata" (cacheMetadataJson t₀ ttlHours pid) ∧
    alistGet (upload_json_data store t₀ pid doc ttlHours).mutated "_metadata" =
      some (cacheMetadataJson t₀ ttlHours pid) ∧
    (∀ k, k ≠ "_metadata" →
      alistGet (upload_json_data store t₀ pid doc ttlHours).mutated k = alistGet doc k) ∧
    (∀ d, get_json_data (upload_json_data store t₀ pid doc ttlHours).store t₁ pid = some d →
      d = (upload_json_data store t₀ pid doc ttlHours).mutated) := by
  refine ⟨rfl, alistGet_alistSet_self doc _ _, fun k hk => alistGet_alistSet_ne doc _ k _ hk, ?_⟩
  intro d hd
  rw [get_json_data_upload] at hd
  by_cases h : t₁ > t₀ + ttlHours * 3600
  · rw [if_pos h] at hd; cases hd
  · rw [if_neg h] at hd; exact (Option.some.inj hd).symm

/-- C10 witness: a concrete put whose mutated dict keeps its original field
and gains the `_metadata` block. -/
theorem c10_witness :
    alistGet (upload_json_data ([] : Store) 0 "7" [("a", Json.num 1)] 1).mutated "a" =
      some (Json.num 1) ∧
    alistGet (upload_json_data ([] : Store) 0 "7" [("a", Json.num 1)] 1).mutated "_metadata" =
      some (cacheMetadataJson 0 1 "7") :=
  ⟨(c10_upload_mutates_caller_document [] "7" [("a", Json.num 1)] 1 0 0).2.2.1 "a" (by decide),
   (c10_upload_mutates_caller_document [] "7" [("a", Json.num 1)] 1 0 0).2.1⟩

/-! ## Consolidation engine: per-area finding resolution -/

/-- C1: for every group of per-record findings consolidated under one area:
any `"D"` record makes the resolved finding `"D"`; otherwise all-`"NA"`
records resolve to `"NA"`; otherwise the area resolves to `"ND"`. -/
theorem c1_resolve_finding (reviewAreaName : String) (controls : List MappedControl) :
    ((∃ c ∈ controls, c.finding = "D") →
      (consolidate_review_area reviewAreaName controls).finding = "D") ∧
    ((∀ c ∈ controls, c.finding ≠ "D") → (∀ c ∈ controls, c.finding = "NA") →
      (consolidate_review_area reviewAreaName controls).finding = "NA") ∧
    ((∀ c ∈ controls, c.finding ≠ "D") → (∃ c ∈ controls, c.finding ≠ "NA") →
      (consolidate_review_area reviewAreaName controls).finding = "ND") := by
  refine ⟨?_, ?_, ?_⟩
  · rintro ⟨c, hc, hD⟩
    have hne : controls.filter (fun c => c.finding = "D") ≠ [] :=
      List.ne_nil_of_mem (List.mem_filter.mpr ⟨hc, by simp [hD]⟩)
    simp only [consolidate_review_area, if_pos hne]
  · intro hnoD hallNA
    have hnil : controls.filter (fun c => c.finding = "D") = [] := by
      rw [List.filter_eq_nil_iff]
      intro c hc
      simp [hnoD c hc]
    have hall : controls.all (fun c => c.finding = "NA") = true := by
      rw [List.all_eq_true]
      intro c hc
      simp [hallNA c hc]
    simp only [consolidate_review_area, hnil, if_neg (by simp : ¬(([] : List MappedControl) ≠ [])), if_pos hall]
  · intro hnoD hexNA
    have hnil : controls.filter (fun c => c.finding = "D") = [] := by
      rw [List.filter_eq_nil_iff]
      intro c hc
      simp [hnoD c hc]
    obtain ⟨c, hc, hcNA⟩ := hexNA
    have hall : ¬ (controls.all (fun c => c.finding = "NA") = true) := by
      rw [List.all_eq_true]
      intro hforall
      exact hcNA (by simpa using hforall c hc)
    simp only [consolidate_review_area, hnil,
      if_neg (by simp : ¬(([] : List MappedControl) ≠ [])), if_neg hall]

/-- C1 witness: a singleton deficient group resolves to `"D"`. -/
theorem c1_witness :
    (consolidate_review_area "Legal"
      [⟨⟨"Complete", "failed compliance check", "", []⟩, "D", "LEGAL : L2", "1", "10"⟩]).finding
      = "D" :=
  (c1_resolve_finding "Legal"
    [⟨⟨"Complete", "failed compliance check", "", []⟩, "D", "LEGAL : L2", "1", "10"⟩]).1
    ⟨⟨⟨"Complete", "failed compliance check", "", []⟩, "D", "LEGAL : L2", "1", "10"⟩,
      by simp, rfl⟩

/-- Every branch of the coarse-status fallback yields `"ND"`. -/
theorem fromStatus_eq_nd (status : String) :
    (if status = "Complete" ∨ status = "Completed" then "ND"
     else if status = "Not Started" then "ND" else "ND") = "ND" := by
  split
  · rfl
  · split <;> rfl

/-- C9: the per-record classifier returns `"D"` when the lowercased comment
text contains a deficiency keyword (fail / deficien / non-complian /
violation); otherwise `"NA"` when it contains an NA marker; otherwise the
finding is derived from the first instance review status the same way, and
defaults to `"ND"` (via the coarse status field, all of whose branches give
`"ND"`) when no rule matches. -/
theorem c9_map_status_to_finding (status : String) (a : Assessment) :
    (hasAnyKeyword (lowerString a.comments) commentDeficiencyKeywords = true →
      map_status_to_finding status a = "D") ∧
    (hasAnyKeyword (lowerString a.comments) commentDeficiencyKeywords = false →
      hasNaMarker (lowerString a.comments) = true →
      map_status_to_finding status a = "NA") ∧
    (hasAnyKeyword (lowerString a.comments) commentDeficiencyKeywords = false →
      hasNaMarker (lowerString a.comments) = false →
      hasAnyKeyword (firstReviewStatus a) reviewStatusDeficiencyKeywords = true →
      map_status_to_finding status a = "D") ∧
    (hasAnyKeyword (lowerString a.comments) commentDeficiencyKeywords = false →
      hasNaMarker (lowerString a.comments) = false →
      hasAnyKeyword (firstReviewStatus a) reviewStatusDeficiencyKeywords = false →
      hasNaMarker (firstReviewStatus a) = true →
      map_status_to_finding status a = "NA") ∧
    (hasAnyKeyword (lowerString a.comments) commentDeficiencyKeywords = false →
      hasNaMarker (lowerString a.comments) = false →
      hasAnyKeyword (firstReviewStatus a) reviewStatusDeficiencyKeywords = false →
      hasNaMarker (firstReviewStatus a) = false →
      map_status_to_finding status a = "ND") := by
  have hkw0 : hasAnyKeyword "" commentDeficiencyKeywords = false := by decide
  have hna0 : hasNaMarker "" = false := by decide
  have hrs0 : hasAnyKeyword "" reviewStatusDeficiencyKeywords = false := by decide
  refine ⟨?_, ?_, ?_, ?_, ?_⟩
  · intro hkw
    have hne : lowerString a.comments ≠ "" := by
      intro h
      rw [h, hkw0] at hkw
      cases hkw
    simp only [map_status_to_finding, if_pos (And.intro hne hkw)]
  · intro hkw hna
    have hne : lowerString a.comments ≠ "" := by
      intro h
      rw [h, hna0] at hna
      cases hna
    have hcond1 : ¬(lowerString a.comments ≠ "" ∧
        hasAnyKeyword (lowerString a.comments) commentDeficiencyKeywords = true) := by
      rintro ⟨-, hk⟩
      rw [hkw] at hk
      cases hk
    simp only [map_status_to_finding, if_neg hcond1, if_pos (And.intro hne hna)]
  all_goals (
    intro hkw hna
    have hcond1 : ¬(lowerString a.comments ≠ "" ∧
        hasAnyKeyword (lowerString a.comments) commentDeficiencyKeywords = true) := by
      rintro ⟨-, hk⟩
      rw [hkw] at hk
      cases hk
    have hcond2 : ¬(lowerString a.comments ≠ "" ∧
        hasNaMarker (lowerString a.comments) = true) := by
      rintro ⟨-, hk⟩
      rw [hna] at hk
      cases hk
    simp only [map_status_to_finding, if_neg hcond1, if_neg hcond2])
  · intro hrs
    rcases hi : a.instances with _ | ⟨inst, rest⟩
    · simp [firstReviewStatus, hi, hrs0] at hrs
    · simp only [firstReviewStatus, hi] at hrs
      have hne : lowerString inst.review_status ≠ "" := by
        intro h
        rw [h, hrs0] at hrs
        cases hrs
      simp only [hi]
      rw [if_pos (And.intro hne hrs)]
  · intro hrs hrsna
    rcases hi : a.instances with _ | ⟨inst, rest⟩
    · simp [firstReviewStatus, hi, hna0] at hrsna
    · simp only [firstReviewStatus, hi] at hrs hrsna
      have hne : lowerString inst.review_status ≠ "" := by
        intro h
        rw [h, hna0] at hrsna
        cases hrsna
      have hc3 : ¬(lowerString inst.review_status ≠ "" ∧
          hasAnyKeyword (lowerString inst.review_status) reviewStatusDeficiencyKeywords = true) := by
        rintro ⟨-, hk⟩
        rw [hrs] at hk
        cases hk
      simp only [hi]
      rw [if_neg hc3, if_pos (And.intro hne hrsna)]
  · intro hrs hrsna
    rcases hi : a.instances with _ | ⟨inst, rest⟩
    · simp only [hi]
      exact fromStatus_eq_nd status
    · simp only [firstReviewStatus, hi] at hrs hrsna
      have hc3 : ¬(lowerString inst.review_status ≠ "" ∧
          hasAnyKeyword (lowerString inst.review_status) reviewStatusDeficiencyKeywords = true) := by
        rintro ⟨-, hk⟩
        rw [hrs] at hk
        cases hk
      have hc4 : ¬(lowerString inst.review_status ≠ "" ∧
          hasNaMarker (lowerString inst.review_status) = true) := by
        rintro ⟨-, hk⟩
        rw [hrsna] at hk
        cases hk
      simp only [hi]
      rw [if_neg hc3, if_neg hc4]
      exact fromStatus_eq_nd status

/-- C9 witness: a record whose comment contains "fail" classifies as
deficient. -/
theorem c9_witness :
    map_status_to_finding "Complete"
      ⟨"Complete", "Failed compliance check", "", []⟩ = "D" :=
  (c9_map_status_to_finding "Complete"
    ⟨"Complete", "Failed compliance check", "", []⟩).1 (by decide)

/-! ## Completeness validator: theorems -/

/-- Every template checks a nonempty field set (15 or 18 paths). -/
theorem template_total_pos (templateId : String) :
    0 < (get_template_requirements templateId).critical.length +
        (get_template_requirements templateId).optional.length := by
  unfold get_template_requirements
  split
  · decide
  · split <;> decide

/-- Missing fields are the checked fields minus the present ones. -/
theorem missing_lengths (l : List String) (p : String → Bool) :
    (l.filter (fun f => ¬ p f)).length = l.length - l.countP p := by
  have h1 := List.length_eq_countP_add_countP (p := p) (l := l)
  have h2 : (l.filter (fun f => ¬ p f)).length = l.countP (fun f => ¬ p f) :=
    (List.countP_eq_length_filter _ _).symm
  have h3 : l.countP (fun f => ¬ p f) = l.countP (fun f => ¬ (p f = true)) := rfl
  omega

/-- C7: `check_completeness` scores
`100 × (checked fields present) / (fields checked)`, rounded down
(`int(...)` truncation agrees with the integer floor on every reachable
field-set size), and allows generation exactly when no critical field is
missing. -/
theorem c7_check_completeness (jsonData : Dict) (templateId : String) :
    (check_completeness jsonData templateId).data_quality_score =
      100 * (((get_template_requirements templateId).critical ++
          (get_template_requirements templateId).optional).countP
            (field_exists jsonData)) /
        ((get_template_requirements templateId).critical ++
          (get_template_requirements templateId).optional).length ∧
    ((check_completeness jsonData templateId).can_generate = true ↔
      ∀ f ∈ (get_template_requirements templateId).critical, field_exists jsonData f = true) := by
  have hpos := template_total_pos templateId
  constructor
  · simp only [check_completeness]
    rw [if_pos hpos]
    rw [List.countP_append, List.length_append]
    rw [missing_lengths, missing_lengths]
    have hc := List.countP_le_length
      (p := field_exists jsonData) (l := (get_template_requirements templateId).critical)
    have ho := List.countP_le_length
      (p := field_exists jsonData) (l := (get_template_requirements templateId).optional)
    congr 1
    omega
  · simp [check_completeness, List.length_eq_zero, List.filter_eq_nil_iff]

/-- C8 (amended): with zero missing fields the score is 100 and generation is
allowed; with `M` of `T` checked fields missing the score is
`100 × (T − M) / T` rounded *down* (not to the nearest integer, which the
counterexample refutes), and generation is allowed iff no critical field is
among the missing ones. -/
theorem c8_amended_completeness (jsonData : Dict) (templateId : String) :
    ((check_completeness jsonData templateId).missing_critical_fields.length +
        (check_completeness jsonData templateId).missing_optional_fields.length = 0 →
      (check_completeness jsonData templateId).data_quality_score = 100 ∧
      (check_completeness jsonData templateId).can_generate = true) ∧
    (check_completeness jsonData templateId).data_quality_score =
      100 * (((get_template_requirements templateId).critical.length +
              (get_template_requirements templateId).optional.length) -
             ((check_completeness jsonData templateId).missing_critical_fields.length +
              (check_completeness jsonData templateId).missing_optional_fields.length)) /
        ((get_template_requirements templateId).critical.length +
         (get_template_requirements templateId).optional.length) ∧
    ((check_completeness jsonData templateId).can_generate = true ↔
      (check_completeness jsonData templateId).missing_critical_fields = []) := by
  have hpos := template_total_pos templateId
  simp only [check_completeness]
  rw [if_pos hpos]
  refine ⟨?_, ?_, ?_⟩
  · intro h
    have hmc : ((get_template_requirements templateId).critical.filter
        (fun f => ¬ field_exists jsonData f)).length = 0 := by omega
    have hmo : ((get_template_requirements templateId).optional.filter
        (fun f => ¬ field_exists jsonData f)).length = 0 := by omega
    rw [hmc, hmo, Nat.sub_zero, Nat.sub_zero]
    exact ⟨Nat.mul_div_cancel_left 100 hpos, by simp⟩
  · rw [Nat.mul_comm, Nat.sub_sub]
  · simp [List.length_eq_zero]

/-- C8 counterexample: a document with all critical fields present and 2 of
15 checked fields missing scores `int((13/15)*100) = 86` — not
`round(100 × 13/15) = 87`, and not 100 despite zero missing critical
fields, refuting both halves of the claim as stated. -/
theorem c8_counterexample :
    (check_completeness twoOptionalMissingDoc "recipient-information-request").missing_critical_fields
      = [] ∧
    (check_completeness twoOptionalMissingDoc
        "recipient-information-request").missing_optional_fields.length = 2 ∧
    (check_completeness twoOptionalMissingDoc "recipient-information-request").data_quality_score
      = 86 ∧
    ¬ ((check_completeness twoOptionalMissingDoc
        "recipient-information-request").data_quality_score = 100) ∧
    ¬ ((check_completeness twoOptionalMissingDoc
        "recipient-information-request").data_quality_score = 87) := by
  refine ⟨by decide, by decide, by decide, by decide, by decide⟩

/-- C7 witness: a concrete complete document can generate. -/
theorem c7_witness :
    (check_completeness allFieldsDoc "draft-audit-report").can_generate = true :=
  (c7_check_completeness allFieldsDoc "draft-audit-report").2.mpr (by decide)

/-- C8 witness: a concrete document with nothing missing scores 100. -/
theorem c8_witness :
    (check_completeness allFieldsDoc "recipient-information-request").data_quality_score = 100 ∧
    (check_completeness allFieldsDoc "recipient-information-request").can_generate = true :=
  (c8_amended_completeness allFieldsDoc "recipient-information-request").1 (by decide)

/-! ## Remote fetcher: theorems -/

/-- C3 counterexample: a 502 — a 5xx status — is not retried: the very first
attempt raises `RISKUITY_HTTP_502` with no backoff sleep at all, where the
claim requires up to 3 attempts with 1s/2s delays for 5xx responses. -/
theorem c3_counterexample :
    request_with_retry 3 persistent502 =
      (.error ⟨"RISKUITY_HTTP_502", some 502⟩, ([] : List Nat)) ∧
    (request_with_retry 3 persistent502).2 ≠ [1, 2] := by
  refine ⟨rfl, by decide⟩

/-- C3 (amended): only 500 and 503 are the retried server statuses —
together with timeouts and connection errors they back off
`2^(attempt-1)` seconds (1s, 2s at the default 3 attempts; 1s, 2s, 4s at 4)
until the attempt budget is exhausted; every other status `>= 400` except
429, including 5xx statuses such as 502, fails immediately with a typed
`RISKUITY_HTTP_{status}` error carrying the status code and no retry. -/
theorem c3_amended_retry {α : Type} (out : Nat → AttemptOutcome α) (s : Nat)
    (ra : Option Nat) (b : Option α) :
    (400 ≤ s → s ≠ 429 → s ≠ 500 → s ≠ 503 → out 1 = .response s ra b →
      request_with_retry 3 out =
        (.error ⟨"RISKUITY_HTTP_" ++ toString s, some s⟩, [])) ∧
    ((∀ k, out k = .response 500 ra b) →
      request_with_retry 3 out = (.error ⟨"RISKUITY_SERVER_ERROR", some 500⟩, [1, 2])) ∧
    ((∀ k, out k = .response 503 ra b) →
      request_with_retry 3 out = (.error ⟨"RISKUITY_SERVER_ERROR", some 503⟩, [1, 2])) ∧
    ((∀ k, out k = .timeout) →
      request_with_retry 3 out = (.error ⟨"RISKUITY_TIMEOUT", none⟩, [1, 2])) ∧
    ((∀ k, out k = .connectionError) →
      request_with_retry 3 out = (.error ⟨"RISKUITY_CONNECTION_ERROR", none⟩, [1, 2])) ∧
    ((∀ k, out k = .timeout) →
      request_with_retry 4 out = (.error ⟨"RISKUITY_TIMEOUT", none⟩, [1, 2, 4])) := by
  refine ⟨?_, ?_, ?_, ?_, ?_, ?_⟩
  · intro h400 h429 h500 h503 h1
    simp only [request_with_retry, request_with_retry_go, h1]
    rw [if_neg h429, if_neg (by rintro (h | h) <;> [exact h500 h; exact h503 h]),
        if_pos h400]
  · intro h
    simp [request_with_retry, request_with_retry_go, h]
  · intro h
    simp [request_with_retry, request_with_retry_go, h]
  · intro h
    simp [request_with_retry, request_with_retry_go, h]
  · intro h
    simp [request_with_retry, request_with_retry_go, h]
  · intro h
    simp [request_with_retry, request_with_retry_go, h]

/-- C3 witness: a persistent 500 exhausts 3 attempts with 1s and 2s
backoffs. -/
theorem c3_witness :
    request_with_retry 3 (fun _ => AttemptOutcome.response 500 none (some (0 : Nat))) =
      (.error ⟨"RISKUITY_SERVER_ERROR", some 500⟩, [1, 2]) :=
  (c3_amended_retry (fun _ => .response 500 none (some 0)) 500 none (some 0)).2.1
    (fun _ => rfl)

/-- Batched fan-out with per-item failure dropping equals a filterMap of the
per-identifier results over the identifier list. -/
theorem get_all_eq_filterMap {α : Type} (fetch : Nat → Except RiskuityAPIError α)
    (mc : Nat) (ids : List Nat) :
    get_all_assessment_details fetch mc ids = ids.filterMap (fun i => (fetch i).toOption) := by
  have main : ∀ (n : Nat) (l : List Nat), l.length ≤ n →
      get_all_assessment_details fetch mc l = l.filterMap (fun i => (fetch i).toOption) := by
    intro n
    induction n with
    | zero =>
        intro l h
        rw [List.length_eq_zero.mp (Nat.le_zero.mp h)]
        simp [get_all_assessment_details]
    | succ n ih =>
        intro l h
        match l with
        | [] => simp [get_all_assessment_details]
        | id :: rest =>
            rw [get_all_assessment_details]
            rw [ih (rest.drop (mc - 1)) (by
              simp only [List.length_drop]
              simp only [List.length_cons] at h
              omega)]
            rw [List.filterMap_map]
            simp only [Function.comp_def]
            rw [← List.filterMap_append, List.cons_append, List.take_append_drop]
  exact main ids.length ids (Nat.le_refl _)

/-- A detail fetch contributes a record exactly when it succeeded. -/
theorem toOption_isSome_eq_isOk {α : Type} (e : Except RiskuityAPIError α) :
    e.toOption.isSome = e.isOk := by
  cases e <;> rfl

/-- C4: `get_all_assessment_details` returns exactly the successfully fetched
records, in order — `n − k` of them when `k` of the `n` per-identifier
fetches fail — and never raises; in particular, for 5 identifiers of which
identifier 3 hits a 500 on every attempt even after retries, it returns the
4 successful records. -/
theorem c4_partial_batch_failure {α : Type} (fetch : Nat → Except RiskuityAPIError α)
    (mc : Nat) (ids : List Nat) :
    get_all_assessment_details fetch mc ids = ids.filterMap (fun i => (fetch i).toOption) ∧
    (get_all_assessment_details fetch mc ids).length =
      ids.length - (ids.filter (fun i => ¬ (fetch i).isOk)).length ∧
    get_all_assessment_details c4_scenario_fetch 10 [1, 2, 3, 4, 5] = [1, 2, 4, 5] ∧
    (get_all_assessment_details c4_scenario_fetch 10 [1, 2, 3, 4, 5]).length = 5 - 1 := by
  refine ⟨get_all_eq_filterMap fetch mc ids, ?_,
    by rw [get_all_eq_filterMap]; decide, by rw [get_all_eq_filterMap]; decide⟩
  rw [get_all_eq_filterMap fetch mc ids]
  rw [List.length_filterMap_eq_countP]
  have h1 : (ids.filter (fun i => ¬ (fetch i).isOk)).length
      = ids.countP (fun i => ¬ (fetch i).isOk) := (List.countP_eq_length_filter _ _).symm
  have h2 : ids.countP (fun i => ((fetch i).toOption).isSome)
      = ids.countP (fun i => (fetch i).isOk) :=
    List.countP_congr (fun i _ => by rw [toOption_isSome_eq_isOk])
  have h3 := List.length_eq_countP_add_countP (p := fun i => (fetch i).isOk) (l := ids)
  have h4 : ids.countP (fun i => ¬ (fetch i).isOk)
      = ids.countP (fun i => ¬ ((fetch i).isOk = true)) := rfl
  omega

/-! ## Consolidation engine: canonical area-set invariant -/

/-- Every consolidation branch keeps the group's area name. -/
theorem consolidate_review_area_name (n : String) (cs : List MappedControl) :
    (consolidate_review_area n cs).review_area = n := by
  simp only [consolidate_review_area]
  split <;> first | rfl | (split <;> rfl)

/-- A successful table lookup yields one of the table's values. -/
theorem alistGet_mem_values {β : Type} (d : List (String × β)) (k : String) (v : β)
    (h : alistGet d k = some v) : v ∈ d.map Prod.snd := by
  induction d with
  | nil => cases h
  | cons p rest ih =>
      obtain ⟨a, b⟩ := p
      simp only [alistGet] at h
      by_cases ha : a = k
      · rw [if_pos ha] at h
        simp [Option.some.inj h]
      · rw [if_neg ha] at h
        simp [ih h]

/-- Every mapped area name belongs to the canonical FY26 area set. -/
theorem map_to_json_review_area_mem (name a : String)
    (h : map_to_json_review_area name = some a) : a ∈ get_all_json_review_areas := by
  unfold map_to_json_review_area at h
  cases he : extractControlCategory name with
  | none => simp [he] at h
  | some p =>
      simp only [he] at h
      by_cases hp : p = ""
      · simp [if_pos hp] at h
      · rw [if_neg hp] at h
        have hv := alistGet_mem_values _ _ _ h
        have hd : a ∈ (RISKUITY_PREFIX_TO_JSON_AREA.map Prod.snd).dedup :=
          List.mem_dedup.mpr hv
        exact ((List.mergeSort_perm _ _).mem_iff).mpr (List.mem_append_left _ hd)

/-- The canonical area set has no duplicates. -/
theorem get_all_json_review_areas_nodup : get_all_json_review_areas.Nodup := by
  have hbase : (((RISKUITY_PREFIX_TO_JSON_AREA.map Prod.snd).dedup) ++ ["Title VI"]).Nodup := by
    refine List.Nodup.append (List.nodup_dedup _) (List.nodup_singleton _) ?_
    intro x hx hy
    rw [List.mem_singleton] at hy
    subst hy
    exact absurd (List.mem_dedup.mp hx) (by decide)
  exact ((List.mergeSort_perm _ _).nodup_iff).mpr hbase

/-- The canonical FY26 area set has 21 areas. -/
theorem get_all_json_review_areas_length : get_all_json_review_areas.length = 21 := by
  rw [get_all_json_review_areas, (List.mergeSort_perm _ _).length_eq]
  decide

/-- Appending to an existing group leaves the group keys unchanged. -/
theorem alistAppendGroup_keys_of_mem {β : Type} (g : List (String × List β)) (k : String) (v : β)
    (h : k ∈ g.map Prod.fst) :
    (alistAppendGroup g k v).map Prod.fst = g.map Prod.fst := by
  induction g with
  | nil => cases h
  | cons p rest ih =>
      obtain ⟨a, vs⟩ := p
      by_cases ha : a = k
      · simp [alistAppendGroup, ha]
      · simp only [List.map_cons, List.mem_cons] at h
        rcases h with h | h
        · exact absurd h.symm ha
        · simp [alistAppendGroup, ha, ih h]

/-- Appending under a new key adds that key at the end. -/
theorem alistAppendGroup_keys_of_not_mem {β : Type} (g : List (String × List β)) (k : String)
    (v : β) (h : k ∉ g.map Prod.fst) :
    (alistAppendGroup g k v).map Prod.fst = g.map Prod.fst ++ [k] := by
  induction g with
  | nil => simp [alistAppendGroup]
  | cons p rest ih =>
      obtain ⟨a, vs⟩ := p
      simp only [List.map_cons, List.mem_cons] at h
      push_neg at h
      simp [alistAppendGroup, if_neg (Ne.symm h.1), ih h.2]

/-- Any key present after a grouping step was present before or is the
mapped area of the stepped record. -/
theorem group_step_keys_sound (g : List (String × List MappedControl)) (pc : ProjectControl)
    (x : String) (hx : x ∈ (group_step g pc).map Prod.fst) :
    x ∈ g.map Prod.fst ∨ map_to_json_review_area pc.control.name = some x := by
  unfold group_step at hx
  cases hm : map_to_json_review_area pc.control.name with
  | none => rw [hm] at hx; exact Or.inl hx
  | some area =>
      rw [hm] at hx
      by_cases hmem : area ∈ g.map Prod.fst
      · rw [alistAppendGroup_keys_of_mem _ _ _ hmem] at hx
        exact Or.inl hx
      · rw [alistAppendGroup_keys_of_not_mem _ _ _ hmem] at hx
        rcases List.mem_append.mp hx with h | h
        · exact Or.inl h
        · rw [List.mem_singleton] at h
          subst h
          exact Or.inr rfl

/-- A grouping step preserves distinctness of the group keys. -/
theorem group_step_keys_nodup (g : List (String × List MappedControl)) (pc : ProjectControl)
    (h : (g.map Prod.fst).Nodup) : ((group_step g pc).map Prod.fst).Nodup := by
  unfold group_step
  cases hm : map_to_json_review_area pc.control.name with
  | none => exact h
  | some area =>
      by_cases hmem : area ∈ g.map Prod.fst
      · rw [alistAppendGroup_keys_of_mem _ _ _ hmem]
        exact h
      · rw [alistAppendGroup_keys_of_not_mem _ _ _ hmem]
        exact List.Nodup.append h (List.nodup_singleton _)
          (fun x hx hy => hmem ((List.mem_singleton.mp hy) ▸ hx))

/-- Any key of the grouped records is the mapped area of some input record
(or was already in the accumulator). -/
theorem foldl_group_step_keys_sound (pcs : List ProjectControl) :
    ∀ (g : List (String × List MappedControl)) (x : String),
      x ∈ ((pcs.foldl group_step g).map Prod.fst) →
      x ∈ g.map Prod.fst ∨ ∃ pc ∈ pcs, map_to_json_review_area pc.control.name = some x := by
  induction pcs with
  | nil => intro g x hx; exact Or.inl hx
  | cons pc rest ih =>
      intro g x hx
      rw [List.foldl_cons] at hx
      rcases ih (group_step g pc) x hx with h | h
      · rcases group_step_keys_sound g pc x h with h' | h'
        · exact Or.inl h'
        · exact Or.inr ⟨pc, List.mem_cons_self _ _, h'⟩
      · obtain ⟨pc', hpc', hm⟩ := h
        exact Or.inr ⟨pc', List.mem_cons_of_mem _ hpc', hm⟩

/-- The grouped records carry pairwise-distinct area keys. -/
theorem foldl_group_step_keys_nodup (pcs : List ProjectControl) :
    ∀ (g : List (String × List MappedControl)), (g.map Prod.fst).Nodup →
      ((pcs.foldl group_step g).map Prod.fst).Nodup := by
  induction pcs with
  | nil => intro g h; exact h
  | cons pc rest ih =>
      intro g h
      rw [List.foldl_cons]
      exact ih _ (group_step_keys_nodup g pc h)

/-- Observed areas followed by the unobserved remainder of the canonical set
form a permutation of the canonical set. -/
theorem keys_append_missing_perm (keys allAreas : List String)
    (hk : keys.Nodup) (ha : allAreas.Nodup) (hsub : ∀ a ∈ keys, a ∈ allAreas) :
    (keys ++ allAreas.filter (fun a => ¬ keys.contains a)).Perm allAreas := by
  rw [List.perm_iff_count]
  intro a
  rw [List.count_append]
  by_cases hm : a ∈ keys
  · have h1 : keys.count a = 1 := List.count_eq_one_of_mem hk hm
    have h2 : (allAreas.filter (fun a => ¬ keys.contains a)).count a = 0 := by
      rw [List.count_eq_zero]
      intro hmem
      have h3 := (List.mem_filter.mp hmem).2
      simp at h3
      exact h3 hm
    have h3 : allAreas.count a = 1 := List.count_eq_one_of_mem ha (hsub a hm)
    omega
  · have h1 : keys.count a = 0 := List.count_eq_zero.mpr hm
    have h2 : (allAreas.filter (fun a => ¬ keys.contains a)).count a = allAreas.count a :=
      List.count_filter (by simp [hm])
    omega

/-- C2: for every input list of raw project-control records, the consolidated
assessments collection has exactly 21 entries (the FY26 canonical set size),
every canonical area name appears exactly once among them, and every
canonical area to which no input record maps appears as the synthesized
`"NA"` entry with null description. -/
theorem c2_canonical_area_set (pcs : List ProjectControl) :
    (consolidate_assessments_by_review_area pcs).length = 21 ∧
    (∀ a ∈ get_all_json_review_areas,
      ((consolidate_assessments_by_review_area pcs).map
          ConsolidatedAssessment.review_area).count a = 1) ∧
    (∀ a ∈ get_all_json_review_areas,
      (∀ pc ∈ pcs, map_to_json_review_area pc.control.name ≠ some a) →
      naAssessment a ∈ consolidate_assessments_by_review_area pcs) := by
  have hnodup : ((group_project_controls pcs).map Prod.fst).Nodup :=
    foldl_group_step_keys_nodup pcs [] (by simp)
  have hsound : ∀ x ∈ (group_project_controls pcs).map Prod.fst,
      ∃ pc ∈ pcs, map_to_json_review_area pc.control.name = some x := by
    intro x hx
    rcases foldl_group_step_keys_sound pcs [] x hx with h | h
    · simp at h
    · exact h
  have hsub : ∀ a ∈ (group_project_controls pcs).map Prod.fst,
      a ∈ get_all_json_review_areas := by
    intro a hx
    obtain ⟨pc, hpc, hm⟩ := hsound a hx
    exact map_to_json_review_area_mem _ _ hm
  have hnames : (consolidate_assessments_by_review_area pcs).map
        ConsolidatedAssessment.review_area
      = (group_project_controls pcs).map Prod.fst ++
        (get_all_json_review_areas.filter
          (fun a => ¬ ((group_project_controls pcs).map Prod.fst).contains a)) := by
    simp only [consolidate_assessments_by_review_area]
    rw [List.map_append, List.map_map, List.map_map]
    congr 1
    · exact List.map_congr_left (fun g _ => consolidate_review_area_name g.1 g.2)
    · exact List.map_congr_left (fun a _ => rfl) |>.trans (List.map_id _)
  have hperm : ((consolidate_assessments_by_review_area pcs).map
        ConsolidatedAssessment.review_area).Perm get_all_json_review_areas := by
    rw [hnames]
    exact keys_append_missing_perm _ _ hnodup get_all_json_review_areas_nodup hsub
  refine ⟨?_, ?_, ?_⟩
  · have hlen := hperm.length_eq
    rw [List.length_map] at hlen
    rw [hlen, get_all_json_review_areas_length]
  · intro a ha
    rw [hperm.count_eq]
    exact List.count_eq_one_of_mem get_all_json_review_areas_nodup ha
  · intro a ha hnone
    have hak : a ∉ (group_project_controls pcs).map Prod.fst := by
      intro hk
      obtain ⟨pc, hpc, hm⟩ := hsound a hk
      exact hnone pc hpc hm
    simp only [consolidate_assessments_by_review_area]
    apply List.mem_append_right
    exact List.mem_map_of_mem naAssessment (List.mem_filter.mpr ⟨ha, by simp [hak]⟩)

/-- C2 witness: with no input records, the synthesized `"NA"` entry for
`"Title VI"` is in the output. -/
theorem c2_witness :
    naAssessment "Title VI" ∈ consolidate_assessments_by_review_area [] :=
  (c2_canonical_area_set []).2.2 "Title VI"
    ((List.mergeSort_perm _ _).mem_iff.mpr (by decide))
    (fun pc hpc => absurd hpc (List.not_mem_nil pc))
